import Mathlib

/-!
Verification of the dependency-review classification pipeline
(`src/main.ts` of jscaltreto/dependency-review-action).

The pipeline in `main.ts` composes a scope filter, an advisory-allowlist
filter, a severity filter, a license resolver and reporting blocks.  The
filter and license modules (`src/filter`, `src/licenses`, `src/utils`) are
imported by `main.ts` but their sources are not part of this snapshot, so
they are modelled from the specification; every definition taken from
`main.ts` itself follows that file line by line.  Effects emitted through
the GitHub Actions toolkit (`core.info`, `core.warning`, `core.setFailed`,
summary accumulation, the final `core.summary.write()`) are modelled as an
ordered list of events produced by a pure `run` function.
-/

namespace DepReview

/-- Dependency scope, from the schema used by `config.fail_on_scopes`. -/
inductive Scope where
  | runtime
  | development
deriving DecidableEq, Repr

/-- Severity ordinal used by vulnerabilities: low < moderate < high < critical. -/
inductive Severity where
  | low
  | moderate
  | high
  | critical
deriving DecidableEq, Repr

/-- Numeric rank of a severity on the four-level ordinal scale. -/
def Severity.level : Severity → Nat
  | .low => 0
  | .moderate => 1
  | .high => 2
  | .critical => 3

/-- The lowercase name of a severity, as it appears in messages. -/
def Severity.label : Severity → String
  | .low => "low"
  | .moderate => "moderate"
  | .high => "high"
  | .critical => "critical"

/-- One advisory affecting a change. -/
structure Vulnerability where
  advisory_id : String
  severity : Severity
  advisory_summary : String
  advisory_url : String
deriving DecidableEq, Repr

/-- One dependency change between two snapshots.  `change_type` is kept as a
raw string because `renderScannedDependency` in `main.ts` explicitly guards
against values outside `added`/`removed`, so the data-integrity fault must be
representable.  A missing `license` field is `Option.none`. -/
structure Change where
  manifest : String
  name : String
  version : String
  change_type : String
  scope : Scope
  license : Option String
  vulnerabilities : List Vulnerability
deriving DecidableEq, Repr

/-- The policy configuration consumed by `run` in `main.ts`.
`fail_on_severity = Option.none` models the string value `none`. -/
structure Config where
  fail_on_severity : Option Severity
  fail_on_scopes : List Scope
  allow_ghsas : List String
  allow_licenses : List String
  deny_licenses : List String
  vulnerability_check : Bool
  license_check : Bool
  comment_summary_in_pr : Bool
deriving DecidableEq, Repr

/-- Modelled from the spec: `filterChangesByScopes` (module `src/filter`, not
in this snapshot) retains a change iff its scope is in the allowed set, and an
empty allowed set means all scopes are allowed (no-op). -/
def filterChangesByScopes (scopes : List Scope) (changes : List Change) : List Change :=
  if scopes.isEmpty then changes
  else changes.filter (fun c => scopes.contains c.scope)

/-- Modelled from the spec: `filterAllowedAdvisories` (module `src/filter`,
not in this snapshot) removes, inside each change, every vulnerability whose
advisory id is allowlisted; the change itself is always retained. -/
def filterAllowedAdvisories (allowedIds : List String) (changes : List Change) : List Change :=
  changes.map (fun c =>
    { c with vulnerabilities :=
        c.vulnerabilities.filter (fun v => !(allowedIds.contains v.advisory_id)) })

/-- Modelled from the spec: `filterChangesBySeverity` (module `src/filter`,
not in this snapshot) retains a change iff at least one of its vulnerabilities
has severity at or above the minimum; a change with no vulnerabilities is
always excluded. -/
def filterChangesBySeverity (minSeverity : Severity) (changes : List Change) : List Change :=
  changes.filter (fun c =>
    c.vulnerabilities.any (fun v => minSeverity.level ≤ v.severity.level))

/-- License policy record passed to the license resolver. -/
structure LicensePolicy where
  allow : List String
  deny : List String
deriving DecidableEq, Repr

/-- Classification of one change by the license resolver. -/
inductive LicenseFate where
  | compliant
  | forbidden
  | unresolved
  | unlicensed
deriving DecidableEq, Repr

/-- Modelled from the spec: a license string counts as a single SPDX
identifier the resolver can evaluate when it is non-empty and built only from
alphanumeric characters, `.`, `-` and `+`; compound expressions (which
contain spaces or operators) are unresolvable. -/
def isSingleSpdxId (s : String) : Bool :=
  !(s.data.isEmpty) &&
    s.data.all (fun ch => ch.isAlphanum || ch == '.' || ch == '-' || ch == '+')

/-- Modelled from the spec: the license resolver's per-change decision
(module `src/licenses`, not in this snapshot).  An absent license is
`unlicensed`; an unevaluable license expression is `unresolved`, taking
precedence over list matching; a non-empty deny list wins over the allow
list; with neither list configured no change is forbidden. -/
def licenseFateOf (policy : LicensePolicy) (c : Change) : LicenseFate :=
  match c.license with
  | Option.none => LicenseFate.unlicensed
  | Option.some l =>
      if !(isSingleSpdxId l) then LicenseFate.unresolved
      else if !(policy.deny.isEmpty) then
        (if policy.deny.contains l then LicenseFate.forbidden else LicenseFate.compliant)
      else if !(policy.allow.isEmpty) then
        (if policy.allow.contains l then LicenseFate.compliant else LicenseFate.forbidden)
      else LicenseFate.compliant

/-- Output of the license resolver: the three non-compliant buckets. -/
structure InvalidLicenseChanges where
  forbidden : List Change
  unresolved : List Change
  unlicensed : List Change
deriving DecidableEq, Repr

/-- Modelled from the spec: `getInvalidLicenseChanges` (module
`src/licenses`, not in this snapshot) buckets the input changes by their
per-change license fate, preserving order. -/
def getInvalidLicenseChanges (changes : List Change) (policy : LicensePolicy) :
    InvalidLicenseChanges :=
  { forbidden := changes.filter (fun c => licenseFateOf policy c == LicenseFate.forbidden)
    unresolved := changes.filter (fun c => licenseFateOf policy c == LicenseFate.unresolved)
    unlicensed := changes.filter (fun c => licenseFateOf policy c == LicenseFate.unlicensed) }

/-- `main.ts` lines 39-42: the minimum severity is the configured one, or
`low` when `fail_on_severity` is `none`. -/
def minSeverityOf (cfg : Config) : Severity :=
  match cfg.fail_on_severity with
  | Option.none => Severity.low
  | Option.some s => s

/-- `main.ts` line 38: `failOnVulnerability = config.fail_on_severity !== 'none'`. -/
def failOnVulnerability (cfg : Config) : Bool :=
  cfg.fail_on_severity.isSome

/-- `main.ts` lines 44-48: the scope filter followed by the advisory
allowlist filter; this sequence feeds both the severity filter and the
license resolver. -/
def filteredChangesOf (cfg : Config) (changes : List Change) : List Change :=
  filterAllowedAdvisories cfg.allow_ghsas
    (filterChangesByScopes cfg.fail_on_scopes changes)

/-- `main.ts` lines 50-58: the severity filter over the filtered changes,
further restricted to added changes with a non-empty vulnerability list. -/
def vulnerableChangesOf (cfg : Config) (changes : List Change) : List Change :=
  (filterChangesBySeverity (minSeverityOf cfg) (filteredChangesOf cfg changes)).filter
    (fun c => c.change_type == "added" && decide (0 < c.vulnerabilities.length))

/-- `main.ts` lines 60-66: the license resolver applied to the filtered
changes (not the severity-filtered ones). -/
def invalidLicensesOf (cfg : Config) (changes : List Change) : InvalidLicenseChanges :=
  getInvalidLicenseChanges (filteredChangesOf cfg changes)
    { allow := cfg.allow_licenses, deny := cfg.deny_licenses }

/-- One observable effect of `run`, in emission order: messages through
`core.info` / `core.warning` / `core.setFailed`, the summary accumulation of
both result sets (`summary.addSummaryToSummary`), the PR comment, and the
final `core.summary.write()`. -/
inductive Event where
  | info (msg : String)
  | warning (msg : String)
  | setFailed (msg : String)
  | summaryAdd (vulnerable : List Change) (invalid : InvalidLicenseChanges)
  | commentPr
  | summaryWrite
deriving DecidableEq, Repr

/-- `main.ts` lines 142-153: the info lines for one vulnerable change. -/
def printChangeVulnerabilities (c : Change) : List Event :=
  c.vulnerabilities.flatMap (fun v =>
    [Event.info (c.manifest ++ " >> " ++ c.name ++ "@" ++ c.version ++ " - " ++
        v.advisory_summary),
     Event.info ("  -> " ++ v.advisory_url)])

/-- `main.ts` lines 113-140 (`printVulnerabilitiesBlock`): list the
vulnerable changes; if any were found, fail the run when
`failOnVulnerability` holds and warn otherwise; if none, print an info line. -/
def printVulnerabilitiesBlock (addedChanges : List Change) (minSeverity : Severity)
    (failOnVuln : Bool) : List Event :=
  if 0 < addedChanges.length then
    addedChanges.flatMap printChangeVulnerabilities ++
      [if failOnVuln then
          Event.setFailed "Dependency review detected vulnerable packages."
        else
          Event.warning "Dependency review detected vulnerable packages."]
  else
    [Event.info ("Dependency review did not detect any vulnerable packages with severity level \"" ++
      minSeverity.label ++ "\" or higher.")]

/-- `main.ts` lines 183-189: one info line per change with an invalid license. -/
def printLicensesError (changes : List Change) : List Event :=
  changes.map (fun c =>
    Event.info (c.manifest ++ " >> " ++ c.name ++ "@" ++ c.version ++ " - License: " ++
      (c.license.getD "")))

/-- `main.ts` lines 191-202: the unlicensed-dependency listing. -/
def printNullLicenses (changes : List Change) : List Event :=
  if changes.length == 0 then []
  else
    Event.info "We could not detect a license for the following dependencies:" ::
      changes.map (fun c =>
        Event.info (c.manifest ++ " >> " ++ c.name ++ "@" ++ c.version))

/-- `main.ts` lines 155-181 (`printLicensesBlock`): a non-empty `forbidden`
bucket fails the run when `failOnVulnerability` holds and warns otherwise; a
non-empty `unresolved` bucket always fails the run; `unlicensed` is only
listed. -/
def printLicensesBlock (inv : InvalidLicenseChanges) (failOnVuln : Bool) : List Event :=
  (if 0 < inv.forbidden.length then
     Event.info "The following dependencies have incompatible licenses:" ::
       printLicensesError inv.forbidden ++
       [if failOnVuln then
           Event.setFailed "Dependency review detected incompatible licenses."
         else
           Event.warning "Dependency review detected incompatible licenses."]
   else []) ++
  (if 0 < inv.unresolved.length then
     Event.warning "The validity of the licenses of the dependencies below could not be determined." ::
       printLicensesError inv.unresolved ++
       [Event.setFailed "Dependency review could not detect the validity of all licenses."]
   else []) ++
  printNullLicenses inv.unlicensed

/-- `main.ts` lines 218-240 (`renderScannedDependency`): a change whose
`change_type` is neither `added` nor `removed` raises
`Unexpected change type`; otherwise the rendered line is returned. -/
def renderScannedDependency (c : Change) : Except String String :=
  if c.change_type ≠ "added" ∧ c.change_type ≠ "removed" then
    Except.error ("Unexpected change type: " ++ c.change_type)
  else
    Except.ok ((if c.change_type == "added" then "+ " else "- ") ++
      c.name ++ "@" ++ c.version)

/-- Renders every change of one manifest group, propagating the
`renderScannedDependency` error. -/
def renderGroup : List Change → Except String (List Event)
  | [] => Except.ok []
  | c :: rest => do
      let s ← renderScannedDependency c
      let evs ← renderGroup rest
      return Event.info s :: evs

/-- Renders the per-manifest groups in order. -/
def scanGroups (cs : List Change) : List String → Except String (List Event)
  | [] => Except.ok []
  | m :: ms => do
      let evs ← renderGroup (cs.filter (fun c => c.manifest == m))
      let rest ← scanGroups cs ms
      return (Event.info ("File: " ++ m) :: evs) ++ rest

/-- `main.ts` lines 242-254 (`printScannedDependencies`), with
`groupDependenciesByManifest` (module `src/utils`, not in this snapshot)
modelled from the spec as order-preserving grouping by manifest. -/
def printScannedDependencies (cs : List Change) : Except String (List Event) :=
  scanGroups cs ((cs.map (fun c => c.manifest)).dedup)

/-- `main.ts` lines 20-111 (`run`): an absent change set short-circuits;
otherwise both result sets are computed unconditionally and folded into the
summary, each reporting block runs only when its check is enabled, the
scanned dependencies are rendered (the one raising step, whose error the
catch block turns into `setFailed`), and the finally block writes the
summary exactly once. -/
def run (cfg : Config) (changesOpt : Option (List Change)) : List Event :=
  (match changesOpt with
   | Option.none => [Event.info "No Dependency Changes found. Skipping Dependency Review."]
   | Option.some changes =>
       let vulnerable := vulnerableChangesOf cfg changes
       let invalid := invalidLicensesOf cfg changes
       Event.summaryAdd vulnerable invalid ::
         ((if cfg.vulnerability_check then
             printVulnerabilitiesBlock vulnerable (minSeverityOf cfg) (failOnVulnerability cfg)
           else []) ++
          (if cfg.license_check then
             printLicensesBlock invalid (failOnVulnerability cfg)
           else []) ++
          (match printScannedDependencies changes with
           | Except.ok evs =>
               evs ++ (if cfg.comment_summary_in_pr then [Event.commentPr] else [])
           | Except.error msg => [Event.setFailed msg]))) ++
  [Event.summaryWrite]

/-- Whether an event is a `core.setFailed` call. -/
def Event.isSetFailed : Event → Bool
  | Event.setFailed _ => true
  | _ => false

/-- Whether a list of events marks the run as failed. -/
def hasSetFailed (evs : List Event) : Bool :=
  evs.any Event.isSetFailed

/-- Overall run classification: the run fails iff some emitted event is a
`core.setFailed` call. -/
def runFailed (cfg : Config) (changesOpt : Option (List Change)) : Bool :=
  hasSetFailed (run cfg changesOpt)

/-- A change is well formed when its `change_type` is one of the two values
the schema allows. -/
def wellFormed (c : Change) : Prop :=
  c.change_type = "added" ∨ c.change_type = "removed"

/-- Number of `core.summary.write()` calls among the emitted events. -/
def summaryWriteCount (evs : List Event) : Nat :=
  evs.countP (fun e => e == Event.summaryWrite)

/-- The overall pass/fail boolean exactly as the specification words it:
fail iff (`fail_on_severity != none` and vulnerable-changes non-empty) or
(a license policy is configured and `forbidden` or `unresolved` non-empty).
This definition follows the spec's words, to be compared with the wiring
implemented in `run`. -/
def claimedOverallFail (cfg : Config) (cs : List Change) : Bool :=
  (cfg.fail_on_severity.isSome && decide (0 < (vulnerableChangesOf cfg cs).length)) ||
  ((!(cfg.allow_licenses.isEmpty) || !(cfg.deny_licenses.isEmpty)) &&
    (decide (0 < (invalidLicensesOf cfg cs).forbidden.length) ||
     decide (0 < (invalidLicensesOf cfg cs).unresolved.length)))

/-- A configuration with `fail_on_severity` set to `none`, a deny license
list, and both checks enabled. -/
def cfgDenyNoSeverity : Config :=
  { fail_on_severity := Option.none
    fail_on_scopes := []
    allow_ghsas := []
    allow_licenses := []
    deny_licenses := ["GPL-2.0"]
    vulnerability_check := true
    license_check := true
    comment_summary_in_pr := false }

/-- An added runtime dependency carrying a denied license and no
vulnerabilities. -/
def changeDeniedLicense : Change :=
  { manifest := "package.json"
    name := "pkg-a"
    version := "1.0.0"
    change_type := "added"
    scope := Scope.runtime
    license := Option.some "GPL-2.0"
    vulnerabilities := [] }

/-- A configuration failing on low severity with all scopes allowed and both
checks enabled. -/
def cfgFailLow : Config :=
  { fail_on_severity := Option.some Severity.low
    fail_on_scopes := []
    allow_ghsas := []
    allow_licenses := []
    deny_licenses := []
    vulnerability_check := true
    license_check := true
    comment_summary_in_pr := false }

/-- An added runtime dependency with one high-severity vulnerability. -/
def changeHighVuln : Change :=
  { manifest := "package.json"
    name := "pkg-b"
    version := "2.0.0"
    change_type := "added"
    scope := Scope.runtime
    license := Option.some "MIT"
    vulnerabilities :=
      [{ advisory_id := "GHSA-xxxx"
         severity := Severity.high
         advisory_summary := "a bad bug"
         advisory_url := "https://example.invalid/ghsa" }] }

/-- An added dependency whose license is a compound expression the resolver
cannot evaluate. -/
def changeUnresolvedLicense : Change :=
  { manifest := "package.json"
    name := "pkg-c"
    version := "3.0.0"
    change_type := "added"
    scope := Scope.runtime
    license := Option.some "MIT OR GPL-2.0"
    vulnerabilities := [] }

/-- A bucket record with one unresolved change, used to exercise the license
reporting block. -/
def invUnresolvedOnly : InvalidLicenseChanges :=
  { forbidden := []
    unresolved := [changeUnresolvedLicense]
    unlicensed := [] }

theorem hasSetFailed_append (a b : List Event) :
    hasSetFailed (a ++ b) = (hasSetFailed a || hasSetFailed b) := by
  simp [hasSetFailed]

theorem hasSetFailed_cons (e : Event) (l : List Event) :
    hasSetFailed (e :: l) = (e.isSetFailed || hasSetFailed l) := by
  simp [hasSetFailed]

theorem hasSetFailed_printChangeVulnerabilities (c : Change) :
    hasSetFailed (printChangeVulnerabilities c) = false := by
  rw [hasSetFailed, List.any_eq_false]
  intro e he
  simp only [printChangeVulnerabilities, List.mem_flatMap, List.mem_cons,
    List.mem_singleton, List.not_mem_nil, or_false] at he
  obtain ⟨v, _, he | he⟩ := he <;> simp [he, Event.isSetFailed]

theorem hasSetFailed_printVulnerabilitiesBlock (v : List Change) (m : Severity) (f : Bool) :
    hasSetFailed (printVulnerabilitiesBlock v m f) = (f && decide (0 < v.length)) := by
  unfold printVulnerabilitiesBlock
  split
  · rename_i h
    rw [hasSetFailed_append]
    have hflat : hasSetFailed (v.flatMap printChangeVulnerabilities) = false := by
      rw [hasSetFailed, List.any_eq_false]
      intro e he
      rw [List.mem_flatMap] at he
      obtain ⟨c, _, hec⟩ := he
      have := hasSetFailed_printChangeVulnerabilities c
      rw [hasSetFailed, List.any_eq_false] at this
      exact this e hec
    rw [hflat, Bool.false_or]
    cases f <;> simp [hasSetFailed, Event.isSetFailed, h]
  · rename_i h
    simp [hasSetFailed, Event.isSetFailed, h]

theorem hasSetFailed_printLicensesError (cs : List Change) :
    hasSetFailed (printLicensesError cs) = false := by
  rw [hasSetFailed, List.any_eq_false]
  intro e he
  simp only [printLicensesError, List.mem_map] at he
  obtain ⟨c, _, he⟩ := he
  simp [← he, Event.isSetFailed]

theorem hasSetFailed_printNullLicenses (cs : List Change) :
    hasSetFailed (printNullLicenses cs) = false := by
  rw [hasSetFailed, List.any_eq_false]
  intro e he
  unfold printNullLicenses at he
  split at he
  · simp at he
  · simp only [List.mem_cons, List.mem_map] at he
    obtain he | ⟨c, _, he⟩ := he
    · simp [he, Event.isSetFailed]
    · rw [← he]
      simp [Event.isSetFailed]

theorem hasSetFailed_printLicensesBlock (inv : InvalidLicenseChanges) (f : Bool) :
    hasSetFailed (printLicensesBlock inv f) =
      ((f && decide (0 < inv.forbidden.length)) || decide (0 < inv.unresolved.length)) := by
  unfold printLicensesBlock
  rw [hasSetFailed_append, hasSetFailed_append, hasSetFailed_printNullLicenses]
  have hforb : hasSetFailed
      (if 0 < inv.forbidden.length then
        Event.info "The following dependencies have incompatible licenses:" ::
          printLicensesError inv.forbidden ++
          [if f then
              Event.setFailed "Dependency review detected incompatible licenses."
            else
              Event.warning "Dependency review detected incompatible licenses."]
       else []) = (f && decide (0 < inv.forbidden.length)) := by
    split
    · rename_i h
      rw [hasSetFailed_append, hasSetFailed_cons, hasSetFailed_printLicensesError]
      cases f <;> simp [hasSetFailed, Event.isSetFailed, h]
    · rename_i h
      simp [hasSetFailed, Event.isSetFailed, h]
  have hunres : hasSetFailed
      (if 0 < inv.unresolved.length then
        Event.warning "The validity of the licenses of the dependencies below could not be determined." ::
          printLicensesError inv.unresolved ++
          [Event.setFailed "Dependency review could not detect the validity of all licenses."]
       else []) = decide (0 < inv.unresolved.length) := by
    split
    · rename_i h
      rw [hasSetFailed_append, hasSetFailed_cons, hasSetFailed_printLicensesError]
      simp [hasSetFailed, Event.isSetFailed, h]
    · rename_i h
      simp [hasSetFailed, Event.isSetFailed, h]
  rw [hforb, hunres, Bool.or_false]

theorem renderScannedDependency_isOk (c : Change) :
    (renderScannedDependency c).isOk = true ↔ wellFormed c := by
  unfold renderScannedDependency wellFormed
  split
  · rename_i h
    simp [Except.isOk, Except.toBool]
    exact h
  · rename_i h
    rw [not_and_or, not_not, not_not] at h
    simp [Except.isOk, Except.toBool, h]

theorem renderGroup_isOk (l : List Change) :
    (renderGroup l).isOk = true ↔ ∀ c ∈ l, (renderScannedDependency c).isOk = true := by
  induction l with
  | nil => simp [renderGroup, Except.isOk, Except.toBool]
  | cons c rest ih =>
    simp only [renderGroup, List.mem_cons, bind, Except.bind]
    cases hr : renderScannedDependency c with
    | error e =>
      simp only [Except.isOk, Except.toBool, Bool.false_eq_true, false_iff, not_forall]
      exact ⟨c, Or.inl rfl, by simp [hr, Except.isOk, Except.toBool]⟩
    | ok s =>
      cases hg : renderGroup rest with
      | error e2 =>
        rw [hg] at ih
        simp only [Except.isOk, Except.toBool, Bool.false_eq_true, false_iff,
          not_forall] at ih ⊢
        obtain ⟨d, hd, hne⟩ := ih
        exact ⟨d, Or.inr hd, hne⟩
      | ok evs =>
        rw [hg] at ih
        simp only [Except.isOk, Except.toBool, true_iff] at ih
        simp only [pure, Except.pure, Except.isOk, Except.toBool, true_iff]
        intro d hd
        rcases hd with hd | hd
        · rw [hd, hr]
        · exact ih d hd

theorem scanGroups_isOk (cs : List Change) (ms : List String) :
    (scanGroups cs ms).isOk = true ↔
      ∀ m ∈ ms, (renderGroup (cs.filter (fun c => c.manifest == m))).isOk = true := by
  induction ms with
  | nil => simp [scanGroups, Except.isOk, Except.toBool]
  | cons m rest ih =>
    simp only [scanGroups, List.mem_cons, bind, Except.bind]
    cases hg : renderGroup (cs.filter (fun c => c.manifest == m)) with
    | error e =>
      simp only [Except.isOk, Except.toBool, Bool.false_eq_true, false_iff, not_forall]
      exact ⟨m, Or.inl rfl, by simp [hg, Except.isOk, Except.toBool]⟩
    | ok evs =>
      cases hs : scanGroups cs rest with
      | error e2 =>
        rw [hs] at ih
        simp only [Except.isOk, Except.toBool, Bool.false_eq_true, false_iff,
          not_forall] at ih ⊢
        obtain ⟨m2, hm2, hne⟩ := ih
        exact ⟨m2, Or.inr hm2, hne⟩
      | ok evs2 =>
        rw [hs] at ih
        simp only [Except.isOk, Except.toBool, true_iff] at ih
        simp only [pure, Except.pure, Except.isOk, Except.toBool, true_iff]
        intro m2 hm2
        rcases hm2 with hm2 | hm2
        · rw [hm2, hg]
        · exact ih m2 hm2

theorem printScannedDependencies_isOk (cs : List Change) :
    (printScannedDependencies cs).isOk = true ↔ ∀ c ∈ cs, wellFormed c := by
  unfold printScannedDependencies
  rw [scanGroups_isOk]
  constructor
  · intro h c hc
    have hm : c.manifest ∈ (cs.map (fun c => c.manifest)).dedup :=
      List.mem_dedup.mpr (List.mem_map_of_mem _ hc)
    have := (renderGroup_isOk _).mp (h c.manifest hm) c
      (List.mem_filter.mpr ⟨hc, by simp⟩)
    exact (renderScannedDependency_isOk c).mp this
  · intro h m _
    rw [renderGroup_isOk]
    intro d hd
    exact (renderScannedDependency_isOk d).mpr (h d (List.mem_filter.mp hd).1)

theorem renderGroup_ok_events (l : List Change) (evs : List Event)
    (h : renderGroup l = Except.ok evs) : ∀ e ∈ evs, ∃ s, e = Event.info s := by
  induction l generalizing evs with
  | nil =>
    simp only [renderGroup, Except.ok.injEq] at h
    simp [← h]
  | cons c rest ih =>
    simp only [renderGroup, bind, Except.bind] at h
    cases hr : renderScannedDependency c with
    | error e => rw [hr] at h; exact absurd h (by simp)
    | ok s =>
      rw [hr] at h
      cases hg : renderGroup rest with
      | error e2 => rw [hg] at h; exact absurd h (by simp)
      | ok evs2 =>
        rw [hg] at h
        simp only [pure, Except.pure, Except.ok.injEq] at h
        intro e he
        rw [← h] at he
        rcases List.mem_cons.mp he with he | he
        · exact ⟨s, he⟩
        · exact ih evs2 hg e he

theorem scanGroups_ok_events (cs : List Change) (ms : List String) (evs : List Event)
    (h : scanGroups cs ms = Except.ok evs) : ∀ e ∈ evs, ∃ s, e = Event.info s := by
  induction ms generalizing evs with
  | nil =>
    simp only [scanGroups, Except.ok.injEq] at h
    simp [← h]
  | cons m rest ih =>
    simp only [scanGroups, bind, Except.bind] at h
    cases hg : renderGroup (cs.filter (fun c => c.manifest == m)) with
    | error e => rw [hg] at h; exact absurd h (by simp)
    | ok evs1 =>
      rw [hg] at h
      cases hs : scanGroups cs rest with
      | error e2 => rw [hs] at h; exact absurd h (by simp)
      | ok evs2 =>
        rw [hs] at h
        simp only [pure, Except.pure, Except.ok.injEq] at h
        intro e he
        rw [← h] at he
        rcases (by simpa using he :
            e = Event.info ("File: " ++ m) ∨ e ∈ evs1 ∨ e ∈ evs2) with he2 | he2 | he2
        · exact ⟨"File: " ++ m, he2⟩
        · exact renderGroup_ok_events _ evs1 hg e he2
        · exact ih evs2 hs e he2

theorem printScannedDependencies_ok_events (cs : List Change) (evs : List Event)
    (h : printScannedDependencies cs = Except.ok evs) :
    ∀ e ∈ evs, ∃ s, e = Event.info s :=
  scanGroups_ok_events cs _ evs h

theorem runFailed_some_eq (cfg : Config) (cs : List Change)
    (hwf : ∀ c ∈ cs, wellFormed c) :
    runFailed cfg (Option.some cs) =
      ((cfg.vulnerability_check && (failOnVulnerability cfg &&
          decide (0 < (vulnerableChangesOf cfg cs).length))) ||
       (cfg.license_check && ((failOnVulnerability cfg &&
          decide (0 < (invalidLicensesOf cfg cs).forbidden.length)) ||
          decide (0 < (invalidLicensesOf cfg cs).unresolved.length)))) := by
  have hok : (printScannedDependencies cs).isOk = true :=
    (printScannedDependencies_isOk cs).mpr hwf
  obtain ⟨evs, hevs⟩ : ∃ evs, printScannedDependencies cs = Except.ok evs := by
    cases hpp : printScannedDependencies cs with
    | error e =>
      rw [hpp] at hok
      simp [Except.isOk, Except.toBool] at hok
    | ok v => exact ⟨v, rfl⟩
  have hevsnf : hasSetFailed evs = false := by
    rw [hasSetFailed, List.any_eq_false]
    intro e he
    obtain ⟨s, rfl⟩ := printScannedDependencies_ok_events cs evs hevs e he
    simp [Event.isSetFailed]
  have hA : hasSetFailed
      (if cfg.vulnerability_check then
        printVulnerabilitiesBlock (vulnerableChangesOf cfg cs) (minSeverityOf cfg)
          (failOnVulnerability cfg)
      else []) = (cfg.vulnerability_check && (failOnVulnerability cfg &&
        decide (0 < (vulnerableChangesOf cfg cs).length))) := by
    split
    · rename_i h
      rw [hasSetFailed_printVulnerabilitiesBlock, h]
      simp [Bool.and_comm]
    · rename_i h
      rw [Bool.not_eq_true] at h
      simp [hasSetFailed, h]
  have hB : hasSetFailed
      (if cfg.license_check then
        printLicensesBlock (invalidLicensesOf cfg cs) (failOnVulnerability cfg)
      else []) = (cfg.license_check && ((failOnVulnerability cfg &&
        decide (0 < (invalidLicensesOf cfg cs).forbidden.length)) ||
        decide (0 < (invalidLicensesOf cfg cs).unresolved.length))) := by
    split
    · rename_i h
      rw [hasSetFailed_printLicensesBlock, h]
      simp
    · rename_i h
      rw [Bool.not_eq_true] at h
      simp [hasSetFailed, h]
  have hC : hasSetFailed
      (evs ++ (if cfg.comment_summary_in_pr then [Event.commentPr] else [])) = false := by
    rw [hasSetFailed_append, hevsnf]
    split <;> simp [hasSetFailed, Event.isSetFailed]
  unfold runFailed run
  simp only [hevs]
  rw [hasSetFailed_append, hasSetFailed_cons, hasSetFailed_append,
    hasSetFailed_append, hA, hB, hC]
  simp [hasSetFailed, Event.isSetFailed]

/-- C4: the vulnerable-changes set is the composition, in this fixed order,
of the scope filter, the advisory allowlist filter, the severity filter and
the restriction to `added` changes; the license resolver receives the
scope-then-allowlist-filtered sequence, not the severity-filtered one. -/
theorem vulnerable_pipeline_order (cfg : Config) (cs : List Change) :
    vulnerableChangesOf cfg cs =
      (filterChangesBySeverity (minSeverityOf cfg)
        (filterAllowedAdvisories cfg.allow_ghsas
          (filterChangesByScopes cfg.fail_on_scopes cs))).filter
        (fun c => c.change_type == "added") ∧
    invalidLicensesOf cfg cs =
      getInvalidLicenseChanges
        (filterAllowedAdvisories cfg.allow_ghsas
          (filterChangesByScopes cfg.fail_on_scopes cs))
        { allow := cfg.allow_licenses, deny := cfg.deny_licenses } := by
  constructor
  · unfold vulnerableChangesOf filteredChangesOf
    apply List.filter_congr
    intro c hc
    unfold filterChangesBySeverity at hc
    have hany := (List.mem_filter.mp hc).2
    rw [List.any_eq_true] at hany
    obtain ⟨v, hv, _⟩ := hany
    have hpos : 0 < c.vulnerabilities.length := List.length_pos.mpr (List.ne_nil_of_mem hv)
    simp [hpos]
  · rfl

/-- C6: a change whose `change_type` is `removed` never appears in the
vulnerable-changes output, whatever its vulnerability list contains. -/
theorem removed_never_vulnerable (cfg : Config) (cs : List Change) (c : Change)
    (h : c ∈ vulnerableChangesOf cfg cs) : c.change_type ≠ "removed" := by
  unfold vulnerableChangesOf at h
  have hpred := (List.mem_filter.mp h).2
  rw [Bool.and_eq_true] at hpred
  have hadded : c.change_type = "added" := by
    have := hpred.1
    simpa using this
  rw [hadded]
  decide

/-- Witness for C6 at a concrete run that produces a vulnerable change. -/
theorem removed_never_vulnerable_witness : changeHighVuln.change_type ≠ "removed" :=
  removed_never_vulnerable cfgFailLow [changeHighVuln] changeHighVuln (by decide)

/-- C7: both result sets are always computed and folded into the summary,
and neither depends on the `vulnerability_check` / `license_check` flags;
those flags only gate the reporting blocks. -/
theorem both_results_always_computed (cfg : Config) (cs : List Change) (b1 b2 : Bool) :
    Event.summaryAdd (vulnerableChangesOf cfg cs) (invalidLicensesOf cfg cs) ∈
      run cfg (Option.some cs) ∧
    vulnerableChangesOf
        { cfg with vulnerability_check := b1, license_check := b2 } cs =
      vulnerableChangesOf cfg cs ∧
    invalidLicensesOf
        { cfg with vulnerability_check := b1, license_check := b2 } cs =
      invalidLicensesOf cfg cs := by
  refine ⟨?_, rfl, rfl⟩
  unfold run
  simp

/-- C8: the `forbidden`, `unresolved` and `unlicensed` buckets of the
license classification are pairwise disjoint: a change appears in at most
one of them. -/
theorem license_buckets_disjoint (cs : List Change) (policy : LicensePolicy) (c : Change) :
    (c ∈ (getInvalidLicenseChanges cs policy).forbidden →
      c ∉ (getInvalidLicenseChanges cs policy).unresolved ∧
      c ∉ (getInvalidLicenseChanges cs policy).unlicensed) ∧
    (c ∈ (getInvalidLicenseChanges cs policy).unresolved →
      c ∉ (getInvalidLicenseChanges cs policy).unlicensed) := by
  unfold getInvalidLicenseChanges
  simp only [List.mem_filter, beq_iff_eq, Bool.and_eq_true, decide_eq_true_eq]
  constructor
  · rintro ⟨_, hf⟩
    constructor
    · rintro ⟨_, hu⟩
      rw [hf] at hu
      cases hu
    · rintro ⟨_, hu⟩
      rw [hf] at hu
      cases hu
  · rintro ⟨_, hr⟩ ⟨_, hu⟩
    rw [hr] at hu
    cases hu

/-- Witness for C8 at a concrete forbidden change. -/
theorem license_buckets_disjoint_witness :
    changeDeniedLicense ∉
      (getInvalidLicenseChanges [changeDeniedLicense]
        { allow := [], deny := ["GPL-2.0"] }).unresolved ∧
    changeDeniedLicense ∉
      (getInvalidLicenseChanges [changeDeniedLicense]
        { allow := [], deny := ["GPL-2.0"] }).unlicensed :=
  (license_buckets_disjoint [changeDeniedLicense]
    { allow := [], deny := ["GPL-2.0"] } changeDeniedLicense).1 (by decide)

/-- C3: rendering a change raises exactly when its `change_type` is outside
`added`/`removed`, and the scanned-dependencies stage -- the one raising
step of the pipeline -- raises exactly when some change is malformed in
this way. -/
theorem malformed_change_is_only_raise (cs : List Change) (c : Change) :
    ((renderScannedDependency c).isOk = false ↔ ¬ wellFormed c) ∧
    ((printScannedDependencies cs).isOk = false ↔ ∃ d ∈ cs, ¬ wellFormed d) := by
  constructor
  · rw [← Bool.not_eq_true, renderScannedDependency_isOk]
  · rw [← Bool.not_eq_true, printScannedDependencies_isOk]
    push_neg
    simp

/-- C5: when `fail_on_severity` is `none` the severity filter still runs at
minimum severity `low`, the vulnerabilities block never fails the run, and
conversely the vulnerabilities block fails the run only when
`fail_on_severity` is not `none`. -/
theorem none_severity_is_informational (cfg : Config) (cs : List Change) :
    (cfg.fail_on_severity = Option.none →
      minSeverityOf cfg = Severity.low ∧
      vulnerableChangesOf cfg cs =
        (filterChangesBySeverity Severity.low (filteredChangesOf cfg cs)).filter
          (fun c => c.change_type == "added" && decide (0 < c.vulnerabilities.length)) ∧
      hasSetFailed (printVulnerabilitiesBlock (vulnerableChangesOf cfg cs)
        (minSeverityOf cfg) (failOnVulnerability cfg)) = false) ∧
    (hasSetFailed (printVulnerabilitiesBlock (vulnerableChangesOf cfg cs)
        (minSeverityOf cfg) (failOnVulnerability cfg)) = true →
      cfg.fail_on_severity ≠ Option.none) := by
  constructor
  · intro h
    have hmin : minSeverityOf cfg = Severity.low := by
      unfold minSeverityOf
      rw [h]
    refine ⟨hmin, ?_, ?_⟩
    · unfold vulnerableChangesOf
      rw [hmin]
    · rw [hasSetFailed_printVulnerabilitiesBlock]
      have : failOnVulnerability cfg = false := by
        unfold failOnVulnerability
        rw [h]
        rfl
      rw [this, Bool.false_and]
  · intro h hnone
    rw [hasSetFailed_printVulnerabilitiesBlock] at h
    have : failOnVulnerability cfg = false := by
      unfold failOnVulnerability
      rw [hnone]
      rfl
    rw [this, Bool.false_and] at h
    cases h

/-- Witness for C5: a configuration that fails on low severity and produces
a failing vulnerabilities block indeed has `fail_on_severity` different
from `none`. -/
theorem none_severity_is_informational_witness :
    cfgFailLow.fail_on_severity ≠ Option.none :=
  (none_severity_is_informational cfgFailLow [changeHighVuln]).2 (by decide)

/-- C9: in the implemented wiring of the licenses block, a non-empty
`forbidden` bucket fails the run only when `failOnVulnerability` holds and
otherwise only warns, whereas a non-empty `unresolved` bucket fails the run
unconditionally. -/
theorem license_block_failure_wiring (inv : InvalidLicenseChanges) (f : Bool) :
    hasSetFailed (printLicensesBlock inv f) =
      ((f && decide (0 < inv.forbidden.length)) || decide (0 < inv.unresolved.length)) ∧
    (f = false → 0 < inv.forbidden.length →
      Event.warning "Dependency review detected incompatible licenses." ∈
        printLicensesBlock inv f) ∧
    (0 < inv.unresolved.length →
      Event.setFailed "Dependency review could not detect the validity of all licenses." ∈
        printLicensesBlock inv f) := by
  refine ⟨hasSetFailed_printLicensesBlock inv f, ?_, ?_⟩
  · intro hf hforb
    unfold printLicensesBlock
    rw [hf]
    simp [hforb]
  · intro hunres
    unfold printLicensesBlock
    simp [hunres]

/-- Witness for C9 at a concrete bucket record with one unresolved change. -/
theorem license_block_failure_wiring_witness :
    Event.setFailed "Dependency review could not detect the validity of all licenses." ∈
      printLicensesBlock invUnresolvedOnly false :=
  (license_block_failure_wiring invUnresolvedOnly false).2.2 (by decide)

/-- C1 counterexample: with `fail_on_severity = none`, a configured deny
list and a forbidden change, the spec's fail condition holds but the run
does not fail (the forbidden branch only warns when `failOnVulnerability`
is false). -/
theorem overall_fail_spec_counterexample :
    claimedOverallFail cfgDenyNoSeverity [changeDeniedLicense] = true ∧
    runFailed cfgDenyNoSeverity (Option.some [changeDeniedLicense]) = false := by
  constructor
  · decide
  · decide

/-- C1 amended: for well-formed change lists the run fails iff
(`vulnerability_check` is on, `fail_on_severity` is not `none` and the
vulnerable set is non-empty) or (`license_check` is on and either
(`fail_on_severity` is not `none` and `forbidden` is non-empty) or
`unresolved` is non-empty). -/
theorem overall_fail_wiring (cfg : Config) (cs : List Change)
    (hwf : ∀ c ∈ cs, wellFormed c) :
    runFailed cfg (Option.some cs) = true ↔
      ((cfg.vulnerability_check = true ∧ cfg.fail_on_severity ≠ Option.none ∧
          vulnerableChangesOf cfg cs ≠ []) ∨
       (cfg.license_check = true ∧
         ((cfg.fail_on_severity ≠ Option.none ∧
            (invalidLicensesOf cfg cs).forbidden ≠ []) ∨
          (invalidLicensesOf cfg cs).unresolved ≠ []))) := by
  rw [runFailed_some_eq cfg cs hwf]
  simp [failOnVulnerability, Option.isSome_iff_ne_none, List.length_pos, and_assoc]

/-- Witness for C1 at a concrete unresolved-license change. -/
theorem overall_fail_wiring_witness :
    runFailed cfgFailLow (Option.some [changeUnresolvedLicense]) = true :=
  (overall_fail_wiring cfgFailLow [changeUnresolvedLicense]
    (by intro c hc; rw [List.mem_singleton] at hc; subst hc; exact Or.inl rfl)).mpr
    (by decide)

/-- C2 counterexample: an empty change sequence is not short-circuited: the
run's output differs from the absent-changes output, and the summary
records that both classifications were computed over the empty sequence. -/
theorem empty_changes_counterexample :
    run cfgFailLow (Option.some []) ≠ run cfgFailLow Option.none ∧
    Event.summaryAdd [] { forbidden := [], unresolved := [], unlicensed := [] } ∈
      run cfgFailLow (Option.some []) := by
  constructor
  · decide
  · decide

/-- C2 amended: only the absent change set short-circuits as nothing to
evaluate; a present sequence, empty included, flows through both
classifications, and the empty sequence terminates without failing. -/
theorem absent_changes_short_circuit (cfg : Config) :
    run cfg Option.none =
      [Event.info "No Dependency Changes found. Skipping Dependency Review.",
       Event.summaryWrite] ∧
    (∀ cs, Event.summaryAdd (vulnerableChangesOf cfg cs) (invalidLicensesOf cfg cs) ∈
        run cfg (Option.some cs)) ∧
    runFailed cfg (Option.some []) = false := by
  refine ⟨rfl, ?_, ?_⟩
  · intro cs
    unfold run
    simp
  · rw [runFailed_some_eq cfg [] (by simp)]
    have h1 : vulnerableChangesOf cfg [] = [] := by
      unfold vulnerableChangesOf filteredChangesOf filterAllowedAdvisories
        filterChangesByScopes filterChangesBySeverity
      simp
    have h2 : invalidLicensesOf cfg [] = ⟨[], [], []⟩ := by
      unfold invalidLicensesOf filteredChangesOf filterAllowedAdvisories
        filterChangesByScopes getInvalidLicenseChanges
      simp
    rw [h1, h2]
    simp

theorem summaryWrite_not_mem_printVulnerabilitiesBlock (v : List Change)
    (m : Severity) (f : Bool) :
    Event.summaryWrite ∉ printVulnerabilitiesBlock v m f := by
  intro h
  unfold printVulnerabilitiesBlock at h
  split at h
  · rcases List.mem_append.mp h with h | h
    · rw [List.mem_flatMap] at h
      obtain ⟨c, _, h⟩ := h
      simp [printChangeVulnerabilities, List.mem_flatMap] at h
    · cases f <;> simp at h
  · simp at h

theorem summaryWrite_not_mem_printLicensesBlock (inv : InvalidLicenseChanges)
    (f : Bool) :
    Event.summaryWrite ∉ printLicensesBlock inv f := by
  intro h
  unfold printLicensesBlock at h
  rcases List.mem_append.mp h with h | h
  · rcases List.mem_append.mp h with h | h
    · split at h
      · rcases List.mem_cons.mp h with h | h
        · cases h
        · rcases List.mem_append.mp h with h | h
          · simp [printLicensesError] at h
          · cases f <;> simp at h
      · simp at h
    · split at h
      · rcases List.mem_cons.mp h with h | h
        · cases h
        · rcases List.mem_append.mp h with h | h
          · simp [printLicensesError] at h
          · simp at h
      · simp at h
  · unfold printNullLicenses at h
    split at h
    · simp at h
    · rcases List.mem_cons.mp h with h | h
      · cases h
      · simp at h

/-- C10: every invocation of `run` writes the summary exactly once, on the
no-changes early return, on normal completion, and when the rendering error
is caught. -/
theorem summary_written_exactly_once (cfg : Config)
    (changesOpt : Option (List Change)) :
    summaryWriteCount (run cfg changesOpt) = 1 := by
  have hp : ∀ l : List Event, (∀ e ∈ l, e ≠ Event.summaryWrite) →
      l.countP (fun e => e == Event.summaryWrite) = 0 := by
    intro l hl
    rw [List.countP_eq_zero]
    intro a ha
    simp only [beq_iff_eq]
    exact hl a ha
  cases changesOpt with
  | none => rfl
  | some cs =>
    unfold run summaryWriteCount
    have hA : (if cfg.vulnerability_check then
        printVulnerabilitiesBlock (vulnerableChangesOf cfg cs) (minSeverityOf cfg)
          (failOnVulnerability cfg)
      else []).countP (fun e => e == Event.summaryWrite) = 0 := by
      apply hp
      split
      · intro e he hw
        rw [hw] at he
        exact summaryWrite_not_mem_printVulnerabilitiesBlock _ _ _ he
      · simp
    have hB : (if cfg.license_check then
        printLicensesBlock (invalidLicensesOf cfg cs) (failOnVulnerability cfg)
      else []).countP (fun e => e == Event.summaryWrite) = 0 := by
      apply hp
      split
      · intro e he hw
        rw [hw] at he
        exact summaryWrite_not_mem_printLicensesBlock _ _ he
      · simp
    have hM : (match printScannedDependencies cs with
        | Except.ok evs =>
            evs ++ (if cfg.comment_summary_in_pr then [Event.commentPr] else [])
        | Except.error msg => [Event.setFailed msg]).countP
          (fun e => e == Event.summaryWrite) = 0 := by
      cases hpp : printScannedDependencies cs with
      | error msg => apply hp; simp
      | ok evs =>
        apply hp
        intro e he hw
        rcases List.mem_append.mp he with he | he
        · obtain ⟨s, hs⟩ := printScannedDependencies_ok_events cs evs hpp e he
          rw [hw] at hs
          cases hs
        · rw [hw] at he
          split at he <;> simp at he
    rw [List.countP_append, List.countP_cons, List.countP_append,
      List.countP_append, hA, hB, hM]
    simp

end DepReview
